import Mathlib

/-!
Formal model of the trading core of the `tradingbot` repository
(src/trading/state.ts, src/trading/position.ts, src/trading/risk.ts,
src/trading/engine.ts, src/core/utils.ts, src/config/constants.ts).

Modelling conventions:
* JavaScript numbers are embedded as exact rationals (`ℚ`).
* `fixedNumber` (src/core/utils.ts) is `Number(num.toFixed(8))`; ECMAScript
  `toFixed` picks the closest multiple of `10 ^ -8`, breaking ties upward,
  which is exactly `round (x * 10 ^ 8) / 10 ^ 8` with Mathlib's `round`
  (`round y = ⌊y + 1 / 2⌋`).
* Wall-clock values (`Date`, `DateTime`) are abstract time stamps (`ℕ`);
  calendar days in the risk gate are day indices (`ℕ`).  String-valued
  identifiers (symbol, order ids) are abstracted as `ℕ`.
* `async` methods become pure functions; the exchange is an oracle supplying
  the ticker price and the outcome of each `createOrder` call (`none` models
  a thrown error).  Methods that call `save()` return the list of states
  written to durable storage alongside the new in-memory state.
-/

/-- Number of decimals kept by `fixedNumber` (src/core/utils.ts, `PRECISION`). -/
def PRECISION : ℕ := 8

/-- `fixedNumber(num) = Number(Number(num).toFixed(PRECISION))` from
src/core/utils.ts: round to the nearest multiple of `10 ^ -PRECISION`,
ties toward `+∞`. -/
def fixedNumber (x : ℚ) : ℚ := (round (x * 10 ^ PRECISION) : ℚ) / 10 ^ PRECISION

/- Deployment constants from src/config/constants.ts (the revision the rest
of the code is built against: `LEVERAGE: 20`, `INITIAL_STAKE_PERCENTAGE: 6.0`). -/
namespace TRADING_CONSTANTS

def LEVERAGE : ℚ := 20

def MIN_DISTANCE : ℚ := 0.001

def MAX_DAILY_LOSSES : ℕ := 3

def MAX_DRAWDOWN : ℚ := 0.15

def INITIAL_STAKE_PERCENTAGE : ℚ := 6.0

def MIN_STAKE_PERCENTAGE : ℚ := 1.5

def MAX_STAKE_PERCENTAGE : ℚ := 6.0

end TRADING_CONSTANTS

/-- `'LONG' | 'SHORT'` (src/types/index.ts). -/
inductive PositionType where
  | LONG
  | SHORT
deriving DecidableEq

/-- `'stopLoss' | 'takeProfit' | 'manual'` (src/types/index.ts, TradeResult.reason). -/
inductive CloseReason where
  | stopLoss
  | takeProfit
  | manual
deriving DecidableEq

/-- `'stop_update' | 'tp_update'` (src/types/index.ts, PositionUpdate.type). -/
inductive UpdateKind where
  | stop_update
  | tp_update
deriving DecidableEq

/-- `PositionUpdate` audit record (src/types/index.ts). -/
structure PositionUpdate where
  timestamp : ℕ
  kind : UpdateKind
  oldValue : ℚ
  newValue : ℚ
deriving DecidableEq

/-- `Position` (src/types/index.ts). -/
structure Position where
  type : PositionType
  entryPrice : ℚ
  size : ℚ
  contractAmount : ℚ
  leverage : ℚ
  stopLoss : ℚ
  takeProfit : ℚ
  entryTime : ℕ
  orderId : Option ℕ
  updates : List PositionUpdate
deriving DecidableEq

/-- `PriceLevel` (src/types/index.ts). -/
structure PriceLevel where
  price : ℚ
  time : ℕ
deriving DecidableEq

/-- The four per-timeframe lists of a `LevelAnalysis` side
(`'4h' | '1h' | '15m' | '5m'`, src/types/index.ts). -/
structure TimeframeLevels where
  h4 : List PriceLevel
  h1 : List PriceLevel
  m15 : List PriceLevel
  m5 : List PriceLevel
deriving DecidableEq

/-- `LevelAnalysis` (src/types/index.ts). -/
structure LevelAnalysis where
  holdLevels : TimeframeLevels
  resistanceLevels : TimeframeLevels
deriving DecidableEq

/-- `EntrySignal` (src/types/index.ts). -/
structure EntrySignal where
  type : PositionType
  price : ℚ
  size : ℚ
  nextLevel : ℚ
deriving DecidableEq

/-- `TradeResult` (src/types/index.ts).  `exitTime: Date` is a wall-clock
value outside the model and is omitted. -/
structure TradeResult where
  position : Position
  exitPrice : ℚ
  pnl : ℚ
  reason : CloseReason
  isLoss : Bool
deriving DecidableEq

/-- The persisted `TradingState` aggregate (src/types/index.ts). -/
structure TradingState where
  currentPosition : Option Position
  currentStakePercentage : ℚ
  accountBalance : Option ℚ
  lastLevels : Option LevelAnalysis
  lastUpdate : Option ℕ
deriving DecidableEq

/-- `'WIN' | 'LOSS'` argument of `adjustStakePercentage` (src/trading/state.ts). -/
inductive TradeOutcome where
  | WIN
  | LOSS
deriving DecidableEq

/-- `'MARKET' | 'LIMIT'` (src/types/exchange.ts, OrderParams.type). -/
inductive OrderType where
  | LIMIT
  | MARKET
deriving DecidableEq

/-- `'BUY' | 'SELL'` (src/types/exchange.ts, OrderParams.side). -/
inductive OrderSide where
  | BUY
  | SELL
deriving DecidableEq

/-- `OrderParams` (src/types/exchange.ts); the symbol is abstracted to `ℕ`. -/
structure OrderParams where
  symbol : ℕ
  otype : OrderType
  side : OrderSide
  amount : ℚ
  price : Option ℚ
  leverage : Option ℚ
  reduceOnly : Bool
deriving DecidableEq

/-- The result shape of `checkExitConditions` (src/trading/state.ts). -/
structure ExitConditions where
  shouldClose : Bool
  reason : Option CloseReason
deriving DecidableEq

namespace TradingStateManager

/-- Field values installed by the `TradingStateManager` constructor
(src/trading/state.ts, lines 20-28). -/
def initialTradingState : TradingState :=
  { currentPosition := none
    currentStakePercentage := 6.0
    accountBalance := none
    lastLevels := none
    lastUpdate := none }

/-- Outcome of the `fs.readFile` + `JSON.parse` step inside `load()`:
either the file was read (and parsing produced a state or threw), or
`readFile` threw `ENOENT`, or `readFile` threw some other error. -/
inductive ReadOutcome where
  | contents (parsed : Option TradingState)
  | enoent
  | readFailure
deriving DecidableEq

/-- Errors `load()` rethrows. -/
inductive LoadError where
  | readFailed
  | parseFailed
deriving DecidableEq

/-- `load()` (src/trading/state.ts, lines 30-50): on success every field is
replaced by the parsed state; `ENOENT` is swallowed, keeping the current
(at startup: default) field values; any other read or parse error is
rethrown. -/
def load (s : TradingState) (r : ReadOutcome) : Except LoadError TradingState :=
  match r with
  | .contents (some st) => .ok st
  | .contents none => .error .parseFailed
  | .enoent => .ok s
  | .readFailure => .error .readFailed

/-- `setCurrentPosition` (src/trading/state.ts, lines 79-83): install the
position, then `save()` the whole aggregate.  The second component lists the
states written to storage. -/
def setCurrentPosition (s : TradingState) (position : Position) :
    TradingState × List TradingState :=
  let s' := { s with currentPosition := some position }
  (s', [s'])

/-- `adjustStakePercentage` (src/trading/state.ts, lines 105-113):
`WIN → min(16.0, stake * 2)`, `LOSS → max(2, stake / 2)`, then `save()`. -/
def adjustStakePercentage (s : TradingState) (tradeResult : TradeOutcome) :
    TradingState × List TradingState :=
  let stake :=
    match tradeResult with
    | .WIN => min 16.0 (s.currentStakePercentage * 2)
    | .LOSS => max 2 (s.currentStakePercentage / 2)
  let s' := { s with currentStakePercentage := stake }
  (s', [s'])

end TradingStateManager

/-- Day-granularity risk state (src/trading/risk.ts): `lastLossDate` is a
calendar-day index. -/
structure RiskState where
  maxDailyLosses : ℕ
  maxDrawdown : ℚ
  dailyLosses : ℕ
  lastLossDate : Option ℕ
  initialBalance : Option ℚ
deriving DecidableEq

namespace RiskManager

/-- `handleLoss()` (src/trading/risk.ts, lines 28-39); `today` is the current
calendar day (`DateTime.now().startOf('day')`). -/
def handleLoss (today : ℕ) (r : RiskState) : RiskState :=
  let dl :=
    match r.lastLossDate with
    | none => 1
    | some d => if d = today then r.dailyLosses + 1 else 1
  { r with dailyLosses := dl, lastLossDate := some today }

/-- `canOpenPosition()` (src/trading/risk.ts, lines 41-56).  Note the source
checks `dailyLosses >= maxDailyLosses` and returns `false` BEFORE the
new-day reset; the reset only runs when the limit has not been reached. -/
def canOpenPosition (today : ℕ) (r : RiskState) : Bool × RiskState :=
  if r.maxDailyLosses ≤ r.dailyLosses then (false, r)
  else
    match r.lastLossDate with
    | some d =>
        if d ≠ today then (true, { r with dailyLosses := 0, lastLossDate := none })
        else (true, r)
    | none => (true, r)

end RiskManager

namespace PositionManager

/-- `this.LEVERAGE = 20` (src/trading/position.ts). -/
def LEVERAGE : ℚ := 20

/-- `this.MIN_DISTANCE = 0.001` (src/trading/position.ts). -/
def MIN_DISTANCE : ℚ := 0.001

/-- The unused third parameter of `isLevelHit` in the source. -/
inductive LevelKind where
  | support
  | resistance
deriving DecidableEq

/-- `'up' | 'down'` direction of `findNextLevel`. -/
inductive ScanDirection where
  | up
  | down
deriving DecidableEq

/-- `isLevelHit` (src/trading/state.ts, lines 453-456):
`|price - level| / level <= MIN_DISTANCE`. -/
def isLevelHit (price level : ℚ) (_kind : LevelKind) : Bool :=
  decide (|price - level| / level ≤ MIN_DISTANCE)

/-- Comparator used by `findNextLevel`'s `sort((a, b) => a.price - b.price)`. -/
def priceLE (a b : PriceLevel) : Prop := a.price ≤ b.price

instance : DecidableRel priceLE := fun a b => inferInstanceAs (Decidable (a.price ≤ b.price))

instance : IsTotal PriceLevel priceLE := ⟨fun a b => le_total a.price b.price⟩

instance : IsTrans PriceLevel priceLE := ⟨fun _ _ _ h1 h2 => le_trans h1 h2⟩

/-- `findNextLevel` (src/trading/state.ts, lines 458-464): sort ascending by
price (stable), then first strictly above for `'up'`, or first strictly
below in the reversed list for `'down'`. -/
def findNextLevel (price : ℚ) (levels : List PriceLevel) (dir : ScanDirection) :
    Option PriceLevel :=
  let sortedLevels := List.insertionSort priceLE levels
  match dir with
  | .up => sortedLevels.find? (fun level => decide (price < level.price))
  | .down => sortedLevels.reverse.find? (fun level => decide (level.price < price))

/-- `calculatePositionSize` (src/trading/state.ts, lines 478-482); the JS
falsy check `!balance` also catches a zero balance. -/
def calculatePositionSize (balance : Option ℚ) (stake : ℚ) : ℚ :=
  match balance with
  | none => 0
  | some b => if b = 0 then 0 else fixedNumber (b * (stake / 100))

/-- `createEntrySignal` (src/trading/state.ts, lines 466-476). -/
def createEntrySignal (balance : Option ℚ) (stake : ℚ) (t : PositionType)
    (price : ℚ) (nextLevel : PriceLevel) : EntrySignal :=
  { type := t
    price := fixedNumber price
    size := fixedNumber (calculatePositionSize balance stake)
    nextLevel := fixedNumber nextLevel.price }

/-- The flattened support list `[...holdLevels['4h'], ...['1h'], ...['15m'],
...['5m']]` built by `checkEntryConditions`. -/
def allSupports (lv : LevelAnalysis) : List PriceLevel :=
  lv.holdLevels.h4 ++ lv.holdLevels.h1 ++ lv.holdLevels.m15 ++ lv.holdLevels.m5

/-- The flattened resistance list built by `checkEntryConditions`. -/
def allResistances (lv : LevelAnalysis) : List PriceLevel :=
  lv.resistanceLevels.h4 ++ lv.resistanceLevels.h1 ++
    lv.resistanceLevels.m15 ++ lv.resistanceLevels.m5

/-- The support `for`-loop of `checkEntryConditions` (src/trading/state.ts,
lines 338-349): the first hit support with an upward target returns a LONG
signal; a hit support without a target falls through to the next support. -/
def supportScan (balance : Option ℚ) (stake price : ℚ)
    (sup res : List PriceLevel) : Option EntrySignal :=
  sup.findSome? fun level =>
    if isLevelHit price level.price .support then
      match findNextLevel price res .up with
      | some r => some (createEntrySignal balance stake .LONG price r)
      | none => none
    else none

/-- The resistance `for`-loop of `checkEntryConditions` (src/trading/state.ts,
lines 356-367), mirroring `supportScan` for SHORT entries. -/
def resistanceScan (balance : Option ℚ) (stake price : ℚ)
    (sup res : List PriceLevel) : Option EntrySignal :=
  res.findSome? fun level =>
    if isLevelHit price level.price .resistance then
      match findNextLevel price sup .down with
      | some r => some (createEntrySignal balance stake .SHORT price r)
      | none => none
    else none

/-- `checkEntryConditions` (src/trading/state.ts, lines 322-382).  The state
reads `getAccountBalance()` / `getCurrentStakePercentage()` are passed in as
`balance` / `stake`; the trailing position-size logging has no effect. -/
def checkEntryConditions (balance : Option ℚ) (stake : ℚ) (price : ℚ)
    (levels : Option LevelAnalysis) : Option EntrySignal :=
  match levels with
  | none => none
  | some lv =>
      let sup := allSupports lv
      let res := allResistances lv
      match supportScan balance stake price sup res with
      | some sig => some sig
      | none => resistanceScan balance stake price sup res

/-- `checkExitConditions` (src/trading/state.ts, lines 384-408). -/
def checkExitConditions (position : Position) (currentPrice : ℚ) : ExitConditions :=
  if position.type = .LONG then
    if currentPrice ≤ position.stopLoss then { shouldClose := true, reason := some .stopLoss }
    else if position.takeProfit ≤ currentPrice then
      { shouldClose := true, reason := some .takeProfit }
    else { shouldClose := false, reason := none }
  else
    if position.stopLoss ≤ currentPrice then { shouldClose := true, reason := some .stopLoss }
    else if currentPrice ≤ position.takeProfit then
      { shouldClose := true, reason := some .takeProfit }
    else { shouldClose := false, reason := none }

/-- `calculateTrailingStop` (src/trading/state.ts, lines 410-422);
`stopDistance = 0.0016`. -/
def calculateTrailingStop (position : Position) (currentPrice : ℚ) : ℚ :=
  if position.type = .LONG then
    max (currentPrice * (1 - 0.0016)) position.stopLoss
  else
    min (currentPrice * (1 + 0.0016)) position.stopLoss

/-- `calculateInitialStop` (src/trading/state.ts, lines 440-444):
`entryPrice * 0.9984` for LONG, `entryPrice * 1.00167` for SHORT. -/
def calculateInitialStop (t : PositionType) (entryPrice : ℚ) : ℚ :=
  if t = .LONG then fixedNumber (entryPrice * 0.9984)
  else fixedNumber (entryPrice * 1.00167)

/-- `calculatePnL` (src/trading/state.ts, lines 446-451). -/
def calculatePnL (position : Position) (exitPrice : ℚ) : ℚ :=
  if position.type = .LONG then
    fixedNumber ((exitPrice - position.entryPrice) * position.contractAmount)
  else
    fixedNumber ((position.entryPrice - exitPrice) * position.contractAmount)

/-- `updateStopLoss` (src/trading/state.ts, lines 424-438), acting on the
stored state: silent no-op without a position; otherwise push one audit
record, overwrite `stopLoss` and persist via `setCurrentPosition`. -/
def updateStopLoss (s : TradingState) (now : ℕ) (newStop : ℚ) :
    TradingState × List TradingState :=
  match s.currentPosition with
  | none => (s, [])
  | some position =>
      let position' :=
        { position with
          updates := position.updates ++
            [{ timestamp := now, kind := .stop_update,
               oldValue := position.stopLoss, newValue := newStop }]
          stopLoss := newStop }
      TradingStateManager.setCurrentPosition s position'

/-- Errors thrown by `openPosition`. -/
inductive OpenError where
  | tooManyOpenOrders
  | orderFailed
deriving DecidableEq

/-- `openPosition` (src/trading/state.ts, lines 153-235).  `openLimitOrders`
is the length of `getOpenLimitOrders(...)` when the exchange provides that
method (`none` when it does not); `tickerLast` is `fetchTicker().last`;
`orderResult` is the id of the created order, `none` when `createOrder`
throws (the failure propagates). -/
def openPosition (sym : ℕ) (entry : EntrySignal) (openLimitOrders : Option ℕ)
    (tickerLast : ℚ) (orderResult : Option ℕ) (now : ℕ) :
    Except OpenError (Position × OrderParams) :=
  let orderSide : OrderSide := if entry.type = .LONG then .BUY else .SELL
  let proceed : Except OpenError (Position × OrderParams) :=
    let lastPrice := fixedNumber tickerLast
    let contractAmount := fixedNumber (entry.size / lastPrice)
    let minAmount : ℚ := 0.001
    if contractAmount < minAmount then
      match orderResult with
      | none => .error .orderFailed
      | some oid =>
          .ok ({ type := entry.type
                 entryPrice := entry.price
                 size := fixedNumber (minAmount * entry.price)
                 contractAmount := minAmount
                 leverage := LEVERAGE
                 stopLoss := calculateInitialStop entry.type entry.price
                 takeProfit := entry.nextLevel
                 entryTime := now
                 orderId := some oid
                 updates := [] },
               { symbol := sym, otype := .LIMIT, side := orderSide,
                 amount := minAmount, price := some entry.price,
                 leverage := some LEVERAGE, reduceOnly := false })
    else
      match orderResult with
      | none => .error .orderFailed
      | some oid =>
          .ok ({ type := entry.type
                 entryPrice := entry.price
                 size := entry.size
                 contractAmount := contractAmount
                 leverage := LEVERAGE
                 stopLoss := calculateInitialStop entry.type entry.price
                 takeProfit := entry.nextLevel
                 entryTime := now
                 orderId := some oid
                 updates := [] },
               { symbol := sym, otype := .LIMIT, side := orderSide,
                 amount := contractAmount, price := some entry.price,
                 leverage := some LEVERAGE, reduceOnly := false })
  match openLimitOrders with
  | some n => if 4 ≤ n then .error .tooManyOpenOrders else proceed
  | none => proceed

/-- The LIMIT close price of one attempt of `closePosition`
(src/trading/state.ts, lines 253-265): `0.9995 *` market when selling to
close a LONG, `1.0005 *` market when buying to close a SHORT. -/
def limitClosePrice (t : PositionType) (tickerLast : ℚ) : ℚ :=
  let currentPrice := fixedNumber tickerLast
  if t = .LONG then fixedNumber (currentPrice * 0.9995)
  else fixedNumber (currentPrice * 1.0005)

/-- The LIMIT close order placed by one attempt of `closePosition`
(src/trading/state.ts, lines 267-274). -/
def limitCloseOrder (sym : ℕ) (position : Position) (tickerLast : ℚ) : OrderParams :=
  { symbol := sym
    otype := .LIMIT
    side := if position.type = .LONG then .SELL else .BUY
    amount := position.contractAmount
    price := some (limitClosePrice position.type tickerLast)
    leverage := none
    reduceOnly := true }

/-- The MARKET close order of the fallback loop of `closePosition`
(src/trading/state.ts, lines 293-300). -/
def marketCloseOrder (sym : ℕ) (position : Position) : OrderParams :=
  { symbol := sym
    otype := .MARKET
    side := if position.type = .LONG then .SELL else .BUY
    amount := position.contractAmount
    price := none
    leverage := none
    reduceOnly := true }

/-- The bounded LIMIT `while (!closed && attempt < maxRetries)` loop of
`closePosition`, as fuel recursion: `limitFill i` is the price of the order
created on attempt `i` (`none` when `createOrder` throws).  Returns the
attempt index and fill price of the first success, if any. -/
def limitCloseLoop (limitFill : ℕ → Option ℚ) : ℕ → ℕ → Option (ℕ × ℚ)
  | _, 0 => none
  | i, r + 1 =>
      match limitFill i with
      | some p => some (i, p)
      | none => limitCloseLoop limitFill (i + 1) r

/-- Full observable outcome of `closePosition`: the returned `TradeResult`
plus the trace of orders placed and how many LIMIT / MARKET attempts ran. -/
structure CloseOutcome where
  result : TradeResult
  orders : List OrderParams
  limitAttempts : ℕ
  marketAttempts : ℕ
deriving DecidableEq

/-- `closePosition` (src/trading/state.ts, lines 237-320).  `tickers i` is
the ticker price fetched on LIMIT attempt `i`; `limitFill i` / `marketFill n`
are the order prices returned by `createOrder` on LIMIT attempt `i` /
MARKET attempt `n`, `none` when the call throws.  The MARKET loop is
unbounded in the source (`while (!closed)`), so termination needs the
eventual-success hypothesis `hm`; `Nat.find hm` is the first successful
MARKET attempt. -/
def closePosition (sym : ℕ) (position : Position) (reason : CloseReason)
    (tickers : ℕ → ℚ) (limitFill marketFill : ℕ → Option ℚ)
    (hm : ∃ n, (marketFill n).isSome = true) : CloseOutcome :=
  match limitCloseLoop limitFill 0 3 with
  | some (i, p) =>
      let exitPrice := fixedNumber p
      let pnl := calculatePnL position exitPrice
      { result :=
          { position := position, exitPrice := exitPrice, pnl := pnl,
            reason := reason, isLoss := decide (pnl < 0) }
        orders := (List.range (i + 1)).map fun j => limitCloseOrder sym position (tickers j)
        limitAttempts := i + 1
        marketAttempts := 0 }
  | none =>
      let n := Nat.find hm
      let exitPrice := fixedNumber ((marketFill n).getD 0)
      let pnl := calculatePnL position exitPrice
      { result :=
          { position := position, exitPrice := exitPrice, pnl := pnl,
            reason := reason, isLoss := decide (pnl < 0) }
        orders :=
          ((List.range 3).map fun j => limitCloseOrder sym position (tickers j)) ++
            ((List.range (n + 1)).map fun _ => marketCloseOrder sym position)
        limitAttempts := 3
        marketAttempts := n + 1 }

end PositionManager

/-- Observable engine state for `TradingEngine` (src/trading/engine.ts):
`levelTimerActive` records whether the `setInterval` timer created by
`scheduleLevelUpdates` is still scheduled (its handle is never stored, so
nothing ever calls `clearInterval`); `refreshCount` counts level refreshes
initiated by `updateLevels`; `saveCount` counts `state.save()` calls. -/
structure EngineState where
  isRunning : Bool
  isOpeningPosition : Bool
  streamActive : Bool
  levelTimerActive : Bool
  refreshCount : ℕ
  saveCount : ℕ
deriving DecidableEq

namespace TradingEngine

/-- `stop()` (src/trading/engine.ts, lines 314-330): early return when not
running; otherwise clear the flags, `stopPriceStream()`, `state.save()`.
The level-update interval is untouched (no handle, no `clearInterval`). -/
def stop (e : EngineState) : EngineState :=
  if e.isRunning = false then e
  else
    { e with
      isRunning := false
      isOpeningPosition := false
      streamActive := false
      saveCount := e.saveCount + 1 }

/-- `scheduleLevelUpdates()` (src/trading/engine.ts, lines 349-355): start
the periodic `setInterval` timer. -/
def scheduleLevelUpdates (e : EngineState) : EngineState :=
  { e with levelTimerActive := true }

/-- One firing of the `setInterval` callback installed by
`scheduleLevelUpdates`: it returns immediately when `isRunning` is false,
otherwise initiates `updateLevels()` (which persists the new snapshot). -/
def levelTimerTick (e : EngineState) : EngineState :=
  if e.levelTimerActive = false then e
  else if e.isRunning = false then e
  else { e with refreshCount := e.refreshCount + 1, saveCount := e.saveCount + 1 }

end TradingEngine

/-! Concrete inputs used by the claim theorems, their witnesses and
counterexamples. -/

/-- The §8 spec scenario: price 100, one support at 100.05, resistances at
102 and 105. -/
def levelsSpecExample : LevelAnalysis :=
  { holdLevels := { h4 := [⟨100.05, 0⟩], h1 := [], m15 := [], m5 := [] }
    resistanceLevels := { h4 := [⟨102, 0⟩, ⟨105, 0⟩], h1 := [], m15 := [], m5 := [] } }

/-- A snapshot with a hit support (100.05 at price 100), no resistance above
the price, a hit resistance (99.95) and a support (99) below the price. -/
def levelsCounterC3 : LevelAnalysis :=
  { holdLevels := { h4 := [⟨100.05, 0⟩, ⟨99, 0⟩], h1 := [], m15 := [], m5 := [] }
    resistanceLevels := { h4 := [⟨99.95, 0⟩], h1 := [], m15 := [], m5 := [] } }

/-- Fresh risk state with `maxDailyLosses = 3` (config default). -/
def riskFresh : RiskState :=
  { maxDailyLosses := 3, maxDrawdown := 0.15, dailyLosses := 0,
    lastLossDate := none, initialBalance := none }

/-- Risk state after three `handleLoss()` calls on day 0. -/
def riskAfterThreeLosses : RiskState :=
  RiskManager.handleLoss 0 (RiskManager.handleLoss 0 (RiskManager.handleLoss 0 riskFresh))

/-- The §8 spec position: LONG entered at 100, stop from
`calculateInitialStop`, take profit 102. -/
def posSpecLong : Position :=
  { type := .LONG, entryPrice := 100, size := 1000, contractAmount := 10,
    leverage := 20, stopLoss := PositionManager.calculateInitialStop .LONG 100,
    takeProfit := 102, entryTime := 0, orderId := none, updates := [] }

/-- A LONG position whose stop sits at 99.84 (the §8 trailing-stop scenario). -/
def posTrail : Position :=
  { type := .LONG, entryPrice := 100, size := 1000, contractAmount := 10,
    leverage := 20, stopLoss := 99.84, takeProfit := 102, entryTime := 0,
    orderId := none, updates := [] }

/-- A stored trading state holding `posTrail`. -/
def stateWithPosition : TradingState :=
  { currentPosition := some posTrail, currentStakePercentage := 6,
    accountBalance := some 1000, lastLevels := none, lastUpdate := none }

/-- A LONG entry signal at 100 targeting 102 with quote size 60. -/
def entryLongExample : EntrySignal :=
  { type := .LONG, price := 100, size := 60, nextLevel := 102 }

/-- The position `openPosition` builds from `entryLongExample` at ticker 100. -/
def posOpened : Position :=
  { type := .LONG, entryPrice := 100, size := 60, contractAmount := 0.6,
    leverage := 20, stopLoss := 99.84, takeProfit := 102, entryTime := 0,
    orderId := some 1, updates := [] }

/-- The LIMIT entry order `openPosition` places for `entryLongExample`. -/
def opOpened : OrderParams :=
  { symbol := 0, otype := .LIMIT, side := .BUY, amount := 0.6,
    price := some 100, leverage := some 20, reduceOnly := false }

/-- A running engine (stream up, level timer scheduled). -/
def engineRunning : EngineState :=
  { isRunning := true, isOpeningPosition := false, streamActive := true,
    levelTimerActive := true, refreshCount := 1, saveCount := 2 }

/-! Helper lemmas. -/

open PositionManager in
/-- `fixedNumber` overshoots its argument by at most half an ulp. -/
theorem fixedNumber_le (x : ℚ) : fixedNumber x ≤ x + 1 / (2 * 10 ^ PRECISION) := by
  have h := abs_sub_round (x * 10 ^ PRECISION)
  rw [abs_sub_le_iff] at h
  have h10 : (0 : ℚ) < 10 ^ PRECISION := by positivity
  rw [fixedNumber, div_le_iff₀ h10]
  have hexp : (x + 1 / (2 * 10 ^ PRECISION)) * 10 ^ PRECISION = x * 10 ^ PRECISION + 1 / 2 := by
    field_simp
    ring
  rw [hexp]
  linarith [h.2]

/-- `fixedNumber` undershoots its argument by at most half an ulp. -/
theorem le_fixedNumber (x : ℚ) : x - 1 / (2 * 10 ^ PRECISION) ≤ fixedNumber x := by
  have h := abs_sub_round (x * 10 ^ PRECISION)
  rw [abs_sub_le_iff] at h
  have h10 : (0 : ℚ) < 10 ^ PRECISION := by positivity
  rw [fixedNumber, le_div_iff₀ h10]
  have hexp : (x - 1 / (2 * 10 ^ PRECISION)) * 10 ^ PRECISION = x * 10 ^ PRECISION - 1 / 2 := by
    field_simp
    ring
  rw [hexp]
  linarith [h.1]

/-- For any realistic entry price the LONG initial stop is strictly below
the entry. -/
theorem calculateInitialStop_long_lt (p : ℚ) (hp : 1 / 100 ≤ p) :
    PositionManager.calculateInitialStop .LONG p < p := by
  have h1 := fixedNumber_le (p * 0.9984)
  rw [PositionManager.calculateInitialStop]
  norm_num [PRECISION] at h1 ⊢
  linarith

/-- For any realistic entry price the SHORT initial stop is strictly above
the entry. -/
theorem calculateInitialStop_short_gt (p : ℚ) (hp : 1 / 100 ≤ p) :
    p < PositionManager.calculateInitialStop .SHORT p := by
  have h1 := le_fixedNumber (p * 1.00167)
  have e : PositionManager.calculateInitialStop .SHORT p = fixedNumber (p * 1.00167) := by
    simp [PositionManager.calculateInitialStop]
  rw [e]
  norm_num [PRECISION] at h1 ⊢
  linarith

/-- For any realistic ticker price the LONG LIMIT close price is strictly
below the current market price. -/
theorem limitClosePrice_long_lt (t : ℚ) (ht : 1 / 100 ≤ t) :
    PositionManager.limitClosePrice .LONG t < fixedNumber t := by
  have hc := le_fixedNumber t
  have h1 := fixedNumber_le (fixedNumber t * 0.9995)
  rw [PositionManager.limitClosePrice]
  norm_num [PRECISION] at hc h1 ⊢
  linarith

/-- For any realistic ticker price the SHORT LIMIT close price is strictly
above the current market price. -/
theorem limitClosePrice_short_gt (t : ℚ) (ht : 1 / 100 ≤ t) :
    fixedNumber t < PositionManager.limitClosePrice .SHORT t := by
  have hc := le_fixedNumber t
  have h1 := le_fixedNumber (fixedNumber t * 1.0005)
  have e : PositionManager.limitClosePrice .SHORT t = fixedNumber (fixedNumber t * 1.0005) := by
    simp [PositionManager.limitClosePrice]
  rw [e]
  norm_num [PRECISION] at hc h1 ⊢
  linarith

/-! Claim theorems. -/

/-- C8: `load()` treats a missing state file as a non-error, keeping every
default field value, while any other read or parse failure is rethrown
(fatal at startup). -/
theorem load_missing_file_defaults :
    TradingStateManager.load TradingStateManager.initialTradingState .enoent =
      .ok TradingStateManager.initialTradingState ∧
    TradingStateManager.initialTradingState.currentPosition = none ∧
    TradingStateManager.initialTradingState.currentStakePercentage = 6 ∧
    TradingStateManager.initialTradingState.accountBalance = none ∧
    TradingStateManager.initialTradingState.lastLevels = none ∧
    (∀ s : TradingState, TradingStateManager.load s .enoent = .ok s) ∧
    (∀ s : TradingState, TradingStateManager.load s .readFailure = .error .readFailed) ∧
    (∀ s : TradingState, TradingStateManager.load s (.contents none) = .error .parseFailed) ∧
    (∀ (s st : TradingState), TradingStateManager.load s (.contents (some st)) = .ok st) := by
  refine ⟨rfl, rfl, ?_, rfl, rfl, fun s => rfl, fun s => rfl, fun s => rfl, fun s st => rfl⟩
  norm_num [TradingStateManager.initialTradingState]

/-- C2: after three losses recorded on day 0, `canOpenPosition()` still
returns `false` on day 1 (and does not reset the counter), because the
source checks the limit before the new-day reset; the documented behaviour
("true again on the next calendar day") does not hold. -/
theorem canOpenPosition_day_rollover_bug :
    riskAfterThreeLosses.dailyLosses = 3 ∧
    riskAfterThreeLosses.lastLossDate = some 0 ∧
    (RiskManager.canOpenPosition 0 riskAfterThreeLosses).1 = false ∧
    (RiskManager.canOpenPosition 1 riskAfterThreeLosses).1 = false ∧
    (RiskManager.canOpenPosition 1 riskAfterThreeLosses).2 = riskAfterThreeLosses := by
  norm_num [riskAfterThreeLosses, riskFresh, RiskManager.handleLoss,
    RiskManager.canOpenPosition]

/-- C7 counterexample: one WIN from the initial stake of 6 yields 12, which
escapes the configured bound `MAX_STAKE_PERCENTAGE = 6` and differs from
`min(MAX_STAKE_PERCENTAGE, stake * 2)`: the code clamps at the hard-coded
16, not at the configured maximum. -/
theorem adjustStake_configured_bounds_false :
    (TradingStateManager.adjustStakePercentage TradingStateManager.initialTradingState
        .WIN).1.currentStakePercentage = 12 ∧
    TRADING_CONSTANTS.MAX_STAKE_PERCENTAGE = 6 ∧
    ¬ (TradingStateManager.adjustStakePercentage TradingStateManager.initialTradingState
        .WIN).1.currentStakePercentage ≤ TRADING_CONSTANTS.MAX_STAKE_PERCENTAGE ∧
    (TradingStateManager.adjustStakePercentage TradingStateManager.initialTradingState
        .WIN).1.currentStakePercentage ≠
      min TRADING_CONSTANTS.MAX_STAKE_PERCENTAGE
        (TradingStateManager.initialTradingState.currentStakePercentage * 2) := by
  norm_num [TradingStateManager.adjustStakePercentage,
    TradingStateManager.initialTradingState, TRADING_CONSTANTS.MAX_STAKE_PERCENTAGE]

/-- One step of `adjustStakePercentage` keeps the stake within the clamp
constants hard-coded in the source, 2 and 16. -/
theorem adjustStake_step_bounds (s : TradingState) (o : TradeOutcome)
    (h2 : 2 ≤ s.currentStakePercentage) (h16 : s.currentStakePercentage ≤ 16) :
    2 ≤ (TradingStateManager.adjustStakePercentage s o).1.currentStakePercentage ∧
      (TradingStateManager.adjustStakePercentage s o).1.currentStakePercentage ≤ 16 := by
  cases o with
  | WIN =>
      have hval : (TradingStateManager.adjustStakePercentage s .WIN).1.currentStakePercentage
          = min 16.0 (s.currentStakePercentage * 2) := rfl
      rw [hval]
      constructor
      · rw [le_min_iff]
        constructor
        · norm_num
        · linarith
      · exact le_trans (min_le_left _ _) (by norm_num)
  | LOSS =>
      have hval : (TradingStateManager.adjustStakePercentage s .LOSS).1.currentStakePercentage
          = max 2 (s.currentStakePercentage / 2) := rfl
      rw [hval]
      constructor
      · exact le_max_left _ _
      · rw [max_le_iff]
        constructor
        · norm_num
        · linarith

/-- C7 (amended): for every WIN/LOSS sequence applied from the initial
state, the stake stays within the hard-coded clamp interval `[2, 16]`
(which is not the configured `[MIN_STAKE_PERCENTAGE, MAX_STAKE_PERCENTAGE]`
= `[1.5, 6]`). -/
theorem adjustStake_hardcoded_bounds (outs : List TradeOutcome) :
    2 ≤ (outs.foldl (fun s o => (TradingStateManager.adjustStakePercentage s o).1)
        TradingStateManager.initialTradingState).currentStakePercentage ∧
    (outs.foldl (fun s o => (TradingStateManager.adjustStakePercentage s o).1)
        TradingStateManager.initialTradingState).currentStakePercentage ≤ 16 := by
  have key : ∀ (l : List TradeOutcome) (s : TradingState),
      2 ≤ s.currentStakePercentage → s.currentStakePercentage ≤ 16 →
      2 ≤ (l.foldl (fun s o => (TradingStateManager.adjustStakePercentage s o).1)
          s).currentStakePercentage ∧
      (l.foldl (fun s o => (TradingStateManager.adjustStakePercentage s o).1)
          s).currentStakePercentage ≤ 16 := by
    intro l
    induction l with
    | nil => intro s h2 h16; exact ⟨h2, h16⟩
    | cons o t ih =>
        intro s h2 h16
        have hstep := adjustStake_step_bounds s o h2 h16
        simpa using ih _ hstep.1 hstep.2
  refine key outs TradingStateManager.initialTradingState ?_ ?_ <;>
    norm_num [TradingStateManager.initialTradingState]

/-- C6: `calculateTrailingStop` never loosens the stop: a LONG stop is the
max of the trail candidate and the current stop, a SHORT stop the min; with
currentStop 99.84, price 105 and trail factor 0.0016 the LONG result is
104.832. -/
theorem calculateTrailingStop_monotone (position : Position) (currentPrice : ℚ) :
    (position.type = .LONG →
      PositionManager.calculateTrailingStop position currentPrice =
        max (currentPrice * (1 - 0.0016)) position.stopLoss ∧
      position.stopLoss ≤ PositionManager.calculateTrailingStop position currentPrice) ∧
    (position.type = .SHORT →
      PositionManager.calculateTrailingStop position currentPrice =
        min (currentPrice * (1 + 0.0016)) position.stopLoss ∧
      PositionManager.calculateTrailingStop position currentPrice ≤ position.stopLoss) ∧
    PositionManager.calculateTrailingStop posTrail 105 = 104.832 := by
  refine ⟨?_, ?_, ?_⟩
  · intro h
    have e : PositionManager.calculateTrailingStop position currentPrice =
        max (currentPrice * (1 - 0.0016)) position.stopLoss := by
      simp [PositionManager.calculateTrailingStop, h]
    exact ⟨e, by rw [e]; exact le_max_right _ _⟩
  · intro h
    have e : PositionManager.calculateTrailingStop position currentPrice =
        min (currentPrice * (1 + 0.0016)) position.stopLoss := by
      simp [PositionManager.calculateTrailingStop, h]
    exact ⟨e, by rw [e]; exact min_le_right _ _⟩
  · have e : PositionManager.calculateTrailingStop posTrail 105 =
        max (105 * (1 - 0.0016)) 99.84 := by
      simp [PositionManager.calculateTrailingStop, posTrail]
    rw [e, max_eq_left (by norm_num)]
    norm_num

/-- C6 witness: the theorem applied to the concrete §8 scenario. -/
theorem calculateTrailingStop_monotone_wit :
    posTrail.stopLoss ≤ PositionManager.calculateTrailingStop posTrail 105 :=
  ((calculateTrailingStop_monotone posTrail 105).1 rfl).2

/-- C4: exit thresholds.  For a LONG position the result is
`{shouldClose := true, reason := stopLoss}` iff price ≤ stopLoss, and
`{shouldClose := true, reason := takeProfit}` iff the stop did not fire and
price ≥ takeProfit (the stop check runs first); the SHORT inequalities are
mirrored.  A LONG entered at 100 has initial stop 99.84, and price 99.80
closes it with reason stopLoss. -/
theorem checkExitConditions_thresholds (position : Position) (price : ℚ) :
    (position.type = .LONG →
      (PositionManager.checkExitConditions position price =
          { shouldClose := true, reason := some .stopLoss } ↔
        price ≤ position.stopLoss) ∧
      (PositionManager.checkExitConditions position price =
          { shouldClose := true, reason := some .takeProfit } ↔
        position.stopLoss < price ∧ position.takeProfit ≤ price)) ∧
    (position.type = .SHORT →
      (PositionManager.checkExitConditions position price =
          { shouldClose := true, reason := some .stopLoss } ↔
        position.stopLoss ≤ price) ∧
      (PositionManager.checkExitConditions position price =
          { shouldClose := true, reason := some .takeProfit } ↔
        price < position.stopLoss ∧ price ≤ position.takeProfit)) ∧
    PositionManager.calculateInitialStop .LONG 100 = 99.84 ∧
    PositionManager.checkExitConditions posSpecLong 99.80 =
      { shouldClose := true, reason := some .stopLoss } := by
  have hstop : PositionManager.calculateInitialStop .LONG 100 = 99.84 := by
    norm_num [PositionManager.calculateInitialStop, fixedNumber, PRECISION, round_eq]
  refine ⟨?_, ?_, hstop, ?_⟩
  · intro h
    simp only [PositionManager.checkExitConditions, h, if_true, reduceIte]
    constructor
    · split_ifs with h1 h2 <;> simp_all [ExitConditions.mk.injEq]
    · split_ifs with h1 h2 <;> simp_all [ExitConditions.mk.injEq]
  · intro h
    have hne : position.type ≠ .LONG := by simp [h]
    simp only [PositionManager.checkExitConditions, if_neg hne]
    constructor
    · split_ifs with h1 h2 <;> simp_all [ExitConditions.mk.injEq]
    · split_ifs with h1 h2 <;> simp_all [ExitConditions.mk.injEq]
  · have hps : posSpecLong.stopLoss = 99.84 := by
      simp only [posSpecLong]
      exact hstop
    simp only [PositionManager.checkExitConditions, posSpecLong, hstop]
    norm_num

/-- C4 witness: the theorem applied to the §8 position at price 99.80. -/
theorem checkExitConditions_thresholds_wit :
    PositionManager.checkExitConditions posSpecLong 99.80 =
      { shouldClose := true, reason := some CloseReason.stopLoss } := by
  have h := checkExitConditions_thresholds posSpecLong 99.80
  refine (h.1 rfl).1.mpr ?_
  have hstop : posSpecLong.stopLoss = 99.84 := by
    norm_num [posSpecLong, PositionManager.calculateInitialStop, fixedNumber,
      PRECISION, round_eq]
  rw [hstop]
  norm_num

/-- C9 counterexample: stopping a running engine leaves the level-refresh
`setInterval` timer scheduled — its handle is never stored, so nothing calls
`clearInterval`; the claim that `stop()` cancels the timer is false. -/
theorem stop_does_not_cancel_timer :
    engineRunning.isRunning = true ∧
    engineRunning.levelTimerActive = true ∧
    (TradingEngine.stop engineRunning).levelTimerActive = true := by
  refine ⟨rfl, rfl, rfl⟩

/-- C9 (amended): `stop()` is a no-op when the engine is not running; when
running it clears the running/opening flags, tears down the price stream and
saves before returning.  The level-refresh timer stays scheduled, but its
callback checks `isRunning` first, so after `stop()` no further level
refresh is initiated. -/
theorem stop_teardown (e : EngineState) :
    (e.isRunning = false → TradingEngine.stop e = e) ∧
    (TradingEngine.stop e).isRunning = false ∧
    (e.isRunning = true →
      (TradingEngine.stop e).streamActive = false ∧
      (TradingEngine.stop e).isOpeningPosition = false ∧
      (TradingEngine.stop e).saveCount = e.saveCount + 1) ∧
    (TradingEngine.stop e).levelTimerActive = e.levelTimerActive ∧
    (TradingEngine.levelTimerTick (TradingEngine.stop e)).refreshCount =
      (TradingEngine.stop e).refreshCount := by
  cases he : e.isRunning <;>
    simp [TradingEngine.stop, TradingEngine.levelTimerTick, he]

/-- C9 witness: the amended theorem applied to a running engine. -/
theorem stop_teardown_wit :
    (TradingEngine.stop engineRunning).streamActive = false ∧
    (TradingEngine.levelTimerTick (TradingEngine.stop engineRunning)).refreshCount =
      (TradingEngine.stop engineRunning).refreshCount :=
  ⟨((stop_teardown engineRunning).2.2.1 rfl).1, (stop_teardown engineRunning).2.2.2.2⟩

/-- C10: `updateStopLoss` with no stored position is a silent no-op (state
unchanged, nothing saved); with a stored position it appends exactly one
audit record (old stop → new stop), changes only `stopLoss` and `updates`
of the position, leaves every other state field unchanged, and saves exactly
the new state. -/
theorem updateStopLoss_frame (s : TradingState) (now : ℕ) (newStop : ℚ) :
    (s.currentPosition = none →
      PositionManager.updateStopLoss s now newStop = (s, [])) ∧
    (∀ position, s.currentPosition = some position →
      (PositionManager.updateStopLoss s now newStop).1.currentPosition =
        some { position with
          stopLoss := newStop
          updates := position.updates ++
            [{ timestamp := now, kind := .stop_update,
               oldValue := position.stopLoss, newValue := newStop }] } ∧
      (PositionManager.updateStopLoss s now newStop).1.currentStakePercentage =
        s.currentStakePercentage ∧
      (PositionManager.updateStopLoss s now newStop).1.accountBalance = s.accountBalance ∧
      (PositionManager.updateStopLoss s now newStop).1.lastLevels = s.lastLevels ∧
      (PositionManager.updateStopLoss s now newStop).1.lastUpdate = s.lastUpdate ∧
      (PositionManager.updateStopLoss s now newStop).2 =
        [(PositionManager.updateStopLoss s now newStop).1]) := by
  constructor
  · intro h
    simp [PositionManager.updateStopLoss, h]
  · intro position h
    simp [PositionManager.updateStopLoss, h, TradingStateManager.setCurrentPosition]

/-- C10 witness: the theorem applied to a state holding a position. -/
theorem updateStopLoss_frame_wit :
    (PositionManager.updateStopLoss stateWithPosition 5 101).1.currentPosition =
      some { posTrail with
        stopLoss := 101
        updates := posTrail.updates ++
          [{ timestamp := 5, kind := .stop_update,
             oldValue := posTrail.stopLoss, newValue := 101 }] } ∧
    (PositionManager.updateStopLoss stateWithPosition 5 101).2 =
      [(PositionManager.updateStopLoss stateWithPosition 5 101).1] := by
  have h := (updateStopLoss_frame stateWithPosition 5 101).2 posTrail rfl
  exact ⟨h.1, h.2.2.2.2.2⟩


/-- C5 counterexample: no single constant `f` satisfies both
`stop(LONG, 100) = 100 * (1 - f)` and `stop(SHORT, 100) = 100 * (1 + f)` —
the source uses 0.0016 on the LONG side but 0.00167 on the SHORT side.
Moreover at the representable dust price `2 * 10 ^ -8` the rounded stop
coincides with the entry on both sides, so strict losing-side placement
needs a realistic price bound. -/
theorem calculateInitialStop_single_factor_false :
    (¬ ∃ f : ℚ,
      PositionManager.calculateInitialStop .LONG 100 = 100 * (1 - f) ∧
      PositionManager.calculateInitialStop .SHORT 100 = 100 * (1 + f)) ∧
    PositionManager.calculateInitialStop .LONG (2 / 10 ^ 8) = 2 / 10 ^ 8 ∧
    PositionManager.calculateInitialStop .SHORT (2 / 10 ^ 8) = 2 / 10 ^ 8 := by
  have eS : ∀ p : ℚ, PositionManager.calculateInitialStop .SHORT p =
      fixedNumber (p * 1.00167) := by
    intro p
    simp [PositionManager.calculateInitialStop]
  refine ⟨?_, ?_, ?_⟩
  · rintro ⟨f, h1, h2⟩
    have e1 : PositionManager.calculateInitialStop .LONG 100 = 99.84 := by
      norm_num [PositionManager.calculateInitialStop, fixedNumber, PRECISION, round_eq]
    have e2 : PositionManager.calculateInitialStop .SHORT 100 = 100.167 := by
      rw [eS]
      norm_num [fixedNumber, PRECISION, round_eq]
    rw [e1] at h1
    rw [e2] at h2
    norm_num at h1 h2
    linarith
  · norm_num [PositionManager.calculateInitialStop, fixedNumber, PRECISION, round_eq]
  · rw [eS]
    norm_num [fixedNumber, PRECISION, round_eq]

/-- C5 (amended): every position built by `openPosition` has
`stopLoss = fixedNumber(entry × (1 − 0.0016))` for LONG and
`fixedNumber(entry × (1 + 0.00167))` for SHORT — two distinct per-side
constants, not one shared constant — and `takeProfit = signal.nextLevel`;
for any entry price ≥ 0.01 the stop lies strictly on the losing side, and
the take profit lies on the winning side whenever the signal's target does. -/
theorem openPosition_stop_placement (sym : ℕ) (entry : EntrySignal)
    (openLimitOrders : Option ℕ) (tickerLast : ℚ) (orderResult : Option ℕ) (now : ℕ)
    (position : Position) (op : OrderParams)
    (h : PositionManager.openPosition sym entry openLimitOrders tickerLast orderResult now =
      .ok (position, op)) :
    position.takeProfit = entry.nextLevel ∧
    position.entryPrice = entry.price ∧
    (entry.type = .LONG →
      position.stopLoss = fixedNumber (entry.price * (1 - 0.0016)) ∧
      (1 / 100 ≤ entry.price → position.stopLoss < position.entryPrice)) ∧
    (entry.type = .SHORT →
      position.stopLoss = fixedNumber (entry.price * (1 + 0.00167)) ∧
      (1 / 100 ≤ entry.price → position.entryPrice < position.stopLoss)) ∧
    (entry.type = .LONG → entry.price < entry.nextLevel →
      position.entryPrice < position.takeProfit) ∧
    (entry.type = .SHORT → entry.nextLevel < entry.price →
      position.takeProfit < position.entryPrice) := by
  have hfields : position.takeProfit = entry.nextLevel ∧
      position.entryPrice = entry.price ∧
      position.stopLoss = PositionManager.calculateInitialStop entry.type entry.price := by
    rcases openLimitOrders with _ | n
    · rcases orderResult with _ | oid
      · by_cases hlt : fixedNumber (entry.size / fixedNumber tickerLast) < (0.001 : ℚ) <;>
          simp [PositionManager.openPosition, hlt] at h
      · by_cases hlt : fixedNumber (entry.size / fixedNumber tickerLast) < (0.001 : ℚ) <;>
          simp [PositionManager.openPosition, hlt] at h <;>
          obtain ⟨hpos, -⟩ := h <;> subst hpos <;> exact ⟨rfl, rfl, rfl⟩
    · by_cases h4 : 4 ≤ n
      · simp [PositionManager.openPosition, h4] at h
      · rcases orderResult with _ | oid
        · by_cases hlt : fixedNumber (entry.size / fixedNumber tickerLast) < (0.001 : ℚ) <;>
            simp [PositionManager.openPosition, h4, hlt] at h
        · by_cases hlt : fixedNumber (entry.size / fixedNumber tickerLast) < (0.001 : ℚ) <;>
            simp [PositionManager.openPosition, h4, hlt] at h <;>
            obtain ⟨hpos, -⟩ := h <;> subst hpos <;> exact ⟨rfl, rfl, rfl⟩
  obtain ⟨htp, hep, hsl⟩ := hfields
  refine ⟨htp, hep, ?_, ?_, ?_, ?_⟩
  · intro ht
    constructor
    · rw [hsl, ht, PositionManager.calculateInitialStop]
      norm_num
    · intro hp
      rw [hsl, ht, hep]
      exact calculateInitialStop_long_lt entry.price hp
  · intro ht
    constructor
    · rw [hsl, ht]
      have e : PositionManager.calculateInitialStop .SHORT entry.price =
          fixedNumber (entry.price * 1.00167) := by
        simp [PositionManager.calculateInitialStop]
      rw [e]
      norm_num
    · intro hp
      rw [hsl, ht, hep]
      exact calculateInitialStop_short_gt entry.price hp
  · intro _ hlt
    rw [htp, hep]
    exact hlt
  · intro _ hlt
    rw [htp, hep]
    exact hlt

/-- C5 witness: the amended theorem applied to a concrete LONG entry at 100
targeting 102, ticker 100, order id 1. -/
theorem openPosition_stop_placement_wit :
    posOpened.stopLoss < posOpened.entryPrice ∧
    posOpened.takeProfit = entryLongExample.nextLevel := by
  have hopen : PositionManager.openPosition 0 entryLongExample none 100 (some 1) 0 =
      .ok (posOpened, opOpened) := by
    have hlt : ¬ fixedNumber ((60 : ℚ) / fixedNumber 100) < (0.001 : ℚ) := by
      norm_num [fixedNumber, PRECISION, round_eq]
    simp only [PositionManager.openPosition, entryLongExample]
    norm_num [hlt, fixedNumber, PRECISION, round_eq, PositionManager.calculateInitialStop,
      PositionManager.LEVERAGE, posOpened, opOpened]
  have h := openPosition_stop_placement 0 entryLongExample none 100 (some 1) 0
    posOpened opOpened hopen
  exact ⟨(h.2.2.1 rfl).2 (by norm_num [entryLongExample]), h.1⟩

open PositionManager

/-- In a list sorted by price, `find?` for "strictly above `price`" returns
a minimal such element. -/
theorem find?_gt_min (price : ℚ) :
    ∀ l : List PriceLevel, l.Sorted priceLE →
      ∀ a, l.find? (fun x => decide (price < x.price)) = some a →
      ∀ b ∈ l, price < b.price → a.price ≤ b.price := by
  intro l
  induction l with
  | nil => intro _ a ha; simp at ha
  | cons c t ih =>
      intro hs a hfind b hb hpb
      by_cases hc : price < c.price
      · rw [List.find?_cons_of_pos _ (by simpa using hc)] at hfind
        obtain rfl : c = a := by simpa using hfind
        rcases List.mem_cons.mp hb with rfl | hbt
        · exact le_refl _
        · exact List.rel_of_sorted_cons hs b hbt
      · rw [List.find?_cons_of_neg _ (by simpa using hc)] at hfind
        rcases List.mem_cons.mp hb with rfl | hbt
        · exact absurd hpb hc
        · exact ih hs.of_cons a hfind b hbt hpb

/-- `findNextLevel(_, _, 'up')` returns the nearest level strictly above
the price. -/
theorem findNextLevel_up_some (price : ℚ) (levels : List PriceLevel) (r : PriceLevel)
    (h : findNextLevel price levels .up = some r) :
    price < r.price ∧ r ∈ levels ∧
      ∀ b ∈ levels, price < b.price → r.price ≤ b.price := by
  have h' : (List.insertionSort priceLE levels).find?
      (fun x => decide (price < x.price)) = some r := h
  have hperm := List.perm_insertionSort priceLE levels
  refine ⟨by simpa using List.find?_some h', hperm.mem_iff.mp (List.mem_of_find?_eq_some h'), ?_⟩
  intro b hb hpb
  exact find?_gt_min price _ (List.sorted_insertionSort priceLE levels) r h' b
    (hperm.mem_iff.mpr hb) hpb

/-- When some support in the scanned list is hit and an upward target
exists, the support loop returns the LONG signal for that target. -/
theorem supportScan_eq_some (balance : Option ℚ) (stake price : ℚ)
    (res : List PriceLevel) (r : PriceLevel)
    (hr : findNextLevel price res .up = some r) :
    ∀ sup : List PriceLevel, (∃ l ∈ sup, isLevelHit price l.price .support = true) →
      supportScan balance stake price sup res =
        some (createEntrySignal balance stake .LONG price r) := by
  intro sup
  induction sup with
  | nil => rintro ⟨l, hl, -⟩; simp at hl
  | cons a t ih =>
      rintro ⟨l, hl, hhit⟩
      simp only [supportScan, hr] at ih ⊢
      rw [List.findSome?_cons]
      by_cases ha : isLevelHit price a.price .support = true
      · simp only [ha, if_true]
      · simp only [ha, if_false]
        rcases List.mem_cons.mp hl with rfl | hlt
        · exact absurd hhit ha
        · exact ih ⟨l, hlt, hhit⟩

/-- Without an upward target the support loop never returns a signal. -/
theorem supportScan_eq_none (balance : Option ℚ) (stake price : ℚ)
    (res : List PriceLevel) (hr : findNextLevel price res .up = none) :
    ∀ sup : List PriceLevel, supportScan balance stake price sup res = none := by
  intro sup
  induction sup with
  | nil => rfl
  | cons a t ih =>
      simp only [supportScan, hr] at ih ⊢
      rw [List.findSome?_cons]
      by_cases ha : isLevelHit price a.price .support = true
      · simp only [ha, if_true]
        exact ih
      · simp only [ha, if_false]
        exact ih

/-- Any signal produced by the resistance loop is a SHORT signal. -/
theorem resistanceScan_type (balance : Option ℚ) (stake price : ℚ)
    (sup : List PriceLevel) (sig : EntrySignal) :
    ∀ res : List PriceLevel,
      resistanceScan balance stake price sup res = some sig → sig.type = .SHORT := by
  cases hdown : findNextLevel price sup .down with
  | none =>
      intro res
      induction res with
      | nil => intro h; exact absurd h (by simp [resistanceScan])
      | cons a t ih =>
          simp only [resistanceScan, hdown] at ih ⊢
          rw [List.findSome?_cons]
          by_cases ha : isLevelHit price a.price .resistance = true
          · simp only [ha, if_true]
            exact ih
          · simp only [ha, if_false]
            exact ih
  | some rr =>
      intro res
      induction res with
      | nil => intro h; exact absurd h (by simp [resistanceScan])
      | cons a t ih =>
          simp only [resistanceScan, hdown] at ih ⊢
          rw [List.findSome?_cons]
          by_cases ha : isLevelHit price a.price .resistance = true
          · simp only [ha, if_true]
            intro h
            obtain rfl : createEntrySignal balance stake .SHORT price rr = sig := by
              simpa using h
            rfl
          · simp only [ha, if_false]
            exact ih

/-- C3 (amended): the support scan runs over the 4h/1h/15m/5m lists in
stored order; whenever some support is hit and a resistance lies strictly
above the price, the scan returns a LONG signal targeting the nearest such
resistance (ascending sort, first greater); when no resistance lies
strictly above, no LONG signal is produced and control falls through to
the resistance/SHORT scan (which may still emit a SHORT signal); the §8
example price=100, support 100.05, resistances 102/105 yields LONG with
nextLevel 102. -/
theorem checkEntryConditions_long_scan (balance : Option ℚ) (stake price : ℚ)
    (lv : LevelAnalysis) :
    ((∃ l ∈ allSupports lv, isLevelHit price l.price .support = true) →
      ∀ r, findNextLevel price (allResistances lv) .up = some r →
        checkEntryConditions balance stake price (some lv) =
          some (createEntrySignal balance stake .LONG price r)) ∧
    (∀ r, findNextLevel price (allResistances lv) .up = some r →
      price < r.price ∧ r ∈ allResistances lv ∧
        ∀ b ∈ allResistances lv, price < b.price → r.price ≤ b.price) ∧
    (findNextLevel price (allResistances lv) .up = none →
      ∀ sig, checkEntryConditions balance stake price (some lv) = some sig →
        sig.type = .SHORT) ∧
    checkEntryConditions (some 1000) 6 100 (some levelsSpecExample) =
      some { type := .LONG, price := 100, size := 60, nextLevel := 102 } := by
  refine ⟨?_, ?_, ?_, ?_⟩
  · intro hex r hr
    have hscan := supportScan_eq_some balance stake price (allResistances lv) r hr
      (allSupports lv) hex
    simp only [checkEntryConditions]
    rw [hscan]
  · intro r hr
    exact findNextLevel_up_some price (allResistances lv) r hr
  · intro hr sig hsig
    have hscan := supportScan_eq_none balance stake price (allResistances lv) hr
      (allSupports lv)
    refine resistanceScan_type balance stake price (allSupports lv) sig
      (allResistances lv) ?_
    simp only [checkEntryConditions] at hsig
    rw [hscan] at hsig
    exact hsig
  · norm_num [checkEntryConditions, supportScan, resistanceScan, allSupports, allResistances,
      levelsSpecExample, isLevelHit, MIN_DISTANCE, findNextLevel, priceLE, List.find?,
      createEntrySignal, calculatePositionSize, fixedNumber, PRECISION, round_eq, abs]

/-- C3 counterexample: at price 100 a support (100.05) is hit and no
resistance lies strictly above, yet `checkEntryConditions` still returns a
signal — a SHORT from the fall-through resistance scan — so "no signal is
produced even though a support was hit" is false as stated. -/
theorem checkEntryConditions_no_target_cex :
    isLevelHit 100 100.05 .support = true ∧
    (⟨100.05, 0⟩ : PriceLevel) ∈ allSupports levelsCounterC3 ∧
    findNextLevel 100 (allResistances levelsCounterC3) .up = none ∧
    checkEntryConditions (some 1000) 6 100 (some levelsCounterC3) =
      some { type := .SHORT, price := 100, size := 60, nextLevel := 99 } := by
  refine ⟨?_, ?_, ?_, ?_⟩
  · norm_num [isLevelHit, MIN_DISTANCE, abs]
  · norm_num [allSupports, levelsCounterC3]
  · norm_num [findNextLevel, allResistances, levelsCounterC3, priceLE, List.find?]
  · norm_num [checkEntryConditions, supportScan, resistanceScan, allSupports, allResistances,
      levelsCounterC3, isLevelHit, MIN_DISTANCE, findNextLevel, priceLE, List.find?,
      createEntrySignal, calculatePositionSize, fixedNumber, PRECISION, round_eq, abs]

/-- C3 witness: the amended theorem applied to the §8 example. -/
theorem checkEntryConditions_long_scan_wit :
    checkEntryConditions (some 1000) 6 100 (some levelsSpecExample) =
      some (createEntrySignal (some 1000) 6 .LONG 100 ⟨102, 0⟩) := by
  refine (checkEntryConditions_long_scan (some 1000) 6 100 levelsSpecExample).1
    ?_ ⟨102, 0⟩ ?_
  · exact ⟨⟨100.05, 0⟩, by norm_num [allSupports, levelsSpecExample],
      by norm_num [isLevelHit, MIN_DISTANCE, abs]⟩
  · norm_num [findNextLevel, allResistances, levelsSpecExample, priceLE, List.find?]

/-- One unfolding step of the bounded LIMIT close loop. -/
theorem limitCloseLoop_step (f : ℕ → Option ℚ) (i r : ℕ) :
    limitCloseLoop f i (r + 1) =
      match f i with
      | some p => some (i, p)
      | none => limitCloseLoop f (i + 1) r := rfl

/-- If the 3-attempt LIMIT loop succeeds at `(i, p)`, then `i` is the first
successful attempt. -/
theorem limitCloseLoop_three_inv_some (f : ℕ → Option ℚ) (i : ℕ) (p : ℚ)
    (h : limitCloseLoop f 0 3 = some (i, p)) :
    i < 3 ∧ f i = some p ∧ ∀ j, j < i → f j = none := by
  rw [show (3 : ℕ) = 2 + 1 from rfl, limitCloseLoop_step] at h
  cases h0 : f 0 with
  | some q =>
      rw [h0] at h
      obtain ⟨rfl, rfl⟩ : 0 = i ∧ q = p := by simpa using h
      exact ⟨by omega, h0, fun j hj => absurd hj (by omega)⟩
  | none =>
      rw [h0, limitCloseLoop_step] at h
      cases h1 : f 1 with
      | some q =>
          rw [h1] at h
          obtain ⟨rfl, rfl⟩ : 1 = i ∧ q = p := by simpa using h
          refine ⟨by omega, h1, ?_⟩
          intro j hj
          interval_cases j
          exact h0
      | none =>
          rw [h1, limitCloseLoop_step] at h
          cases h2 : f 2 with
          | some q =>
              rw [h2] at h
              obtain ⟨rfl, rfl⟩ : 2 = i ∧ q = p := by simpa using h
              refine ⟨by omega, h2, ?_⟩
              intro j hj
              interval_cases j
              · exact h0
              · exact h1
          | none =>
              rw [h2] at h
              simp [limitCloseLoop] at h

/-- If the 3-attempt LIMIT loop fails, all three attempts failed. -/
theorem limitCloseLoop_three_inv_none (f : ℕ → Option ℚ)
    (h : limitCloseLoop f 0 3 = none) :
    f 0 = none ∧ f 1 = none ∧ f 2 = none := by
  rw [show (3 : ℕ) = 2 + 1 from rfl, limitCloseLoop_step] at h
  cases h0 : f 0 with
  | some q => rw [h0] at h; simp at h
  | none =>
      rw [h0, limitCloseLoop_step] at h
      cases h1 : f 1 with
      | some q => rw [h1] at h; simp at h
      | none =>
          rw [h1, limitCloseLoop_step] at h
          cases h2 : f 2 with
          | some q => rw [h2] at h; simp at h
          | none => exact ⟨rfl, rfl, rfl⟩


/-- Conversely, three failures make the LIMIT loop fail. -/
theorem limitCloseLoop_three_of_all_none (f : ℕ → Option ℚ)
    (h0 : f 0 = none) (h1 : f 1 = none) (h2 : f 2 = none) :
    limitCloseLoop f 0 3 = none := by
  rw [show (3 : ℕ) = 2 + 1 from rfl, limitCloseLoop_step, h0, limitCloseLoop_step, h1,
    limitCloseLoop_step, h2]
  rfl

set_option maxHeartbeats 1000000 in
/-- C1: `closePosition` makes at most 3 LIMIT close attempts (reduce-only,
on the stored `contractAmount`, priced a fixed 0.05% offset through the
current ticker: below market when selling to close a LONG, above when
buying to close a SHORT); it enters the unbounded reduce-only MARKET loop
iff all 3 LIMIT attempts fail, and returns immediately after the first
successful order — after 3 LIMIT failures and one MARKET success the
returned exitPrice is the MARKET fill price and no further orders are
placed. -/
theorem closePosition_retry_escalation
    (sym : ℕ) (position : Position) (reason : CloseReason)
    (tickers : ℕ → ℚ) (limitFill marketFill : ℕ → Option ℚ)
    (hm : ∃ n, (marketFill n).isSome = true)
    (htick : ∀ i, 1 / 100 ≤ tickers i)
    (out : CloseOutcome)
    (hout : out = closePosition sym position reason tickers limitFill marketFill hm) :
    out.limitAttempts ≤ 3 ∧
    out.orders.length = out.limitAttempts + out.marketAttempts ∧
    (0 < out.marketAttempts ↔
      limitFill 0 = none ∧ limitFill 1 = none ∧ limitFill 2 = none) ∧
    (∀ o ∈ out.orders, o.reduceOnly = true ∧ o.amount = position.contractAmount ∧
      o.side = (if position.type = .LONG then OrderSide.SELL else OrderSide.BUY)) ∧
    (∀ j, j < out.limitAttempts →
      out.orders[j]? = some (limitCloseOrder sym position (tickers j)) ∧
      (position.type = .LONG →
        limitClosePrice position.type (tickers j) < fixedNumber (tickers j)) ∧
      (position.type = .SHORT →
        fixedNumber (tickers j) < limitClosePrice position.type (tickers j))) ∧
    (∀ i, i < 3 → ∀ p, limitFill i = some p → (∀ j, j < i → limitFill j = none) →
      out.limitAttempts = i + 1 ∧ out.marketAttempts = 0 ∧
      out.result.exitPrice = fixedNumber p) ∧
    ((limitFill 0 = none ∧ limitFill 1 = none ∧ limitFill 2 = none) →
      out.limitAttempts = 3 ∧ out.marketAttempts = Nat.find hm + 1 ∧
      out.result.exitPrice = fixedNumber ((marketFill (Nat.find hm)).getD 0) ∧
      (marketFill (Nat.find hm)).isSome = true ∧
      (∀ m, m < Nat.find hm → marketFill m = none) ∧
      (∀ k, 3 ≤ k → k < out.orders.length →
        out.orders[k]? = some (marketCloseOrder sym position))) ∧
    out.result.reason = reason ∧
    out.result.position = position := by
  subst hout
  have hpr : ∀ j : ℕ,
      (position.type = .LONG →
        limitClosePrice position.type (tickers j) < fixedNumber (tickers j)) ∧
      (position.type = .SHORT →
        fixedNumber (tickers j) < limitClosePrice position.type (tickers j)) := by
    intro j
    constructor
    · intro ht
      rw [ht]
      exact limitClosePrice_long_lt (tickers j) (htick j)
    · intro ht
      rw [ht]
      exact limitClosePrice_short_gt (tickers j) (htick j)
  cases hloop : limitCloseLoop limitFill 0 3 with
  | some ip =>
      obtain ⟨i, p⟩ := ip
      obtain ⟨hi3, hfi, hprev⟩ := limitCloseLoop_three_inv_some limitFill i p hloop
      have hred : closePosition sym position reason tickers limitFill marketFill hm =
          { result :=
              { position := position
                exitPrice := fixedNumber p
                pnl := calculatePnL position (fixedNumber p)
                reason := reason
                isLoss := decide (calculatePnL position (fixedNumber p) < 0) }
            orders := (List.range (i + 1)).map fun j => limitCloseOrder sym position (tickers j)
            limitAttempts := i + 1
            marketAttempts := 0 } := by
        simp only [closePosition, hloop]
      have hA : (closePosition sym position reason tickers limitFill marketFill hm).limitAttempts
          = i + 1 := by rw [hred]
      have hM : (closePosition sym position reason tickers limitFill marketFill hm).marketAttempts
          = 0 := by rw [hred]
      have hO : (closePosition sym position reason tickers limitFill marketFill hm).orders
          = (List.range (i + 1)).map fun j => limitCloseOrder sym position (tickers j) := by
        rw [hred]
      have hE : (closePosition sym position reason tickers limitFill
          marketFill hm).result.exitPrice = fixedNumber p := by rw [hred]
      have hR : (closePosition sym position reason tickers limitFill
          marketFill hm).result.reason = reason := by rw [hred]
      have hP : (closePosition sym position reason tickers limitFill
          marketFill hm).result.position = position := by rw [hred]
      rw [hA, hM, hO, hE, hR, hP]
      refine ⟨by omega, by simp, ?_, ?_, ?_, ?_, ?_, rfl, rfl⟩
      · constructor
        · intro h
          exact absurd h (by omega)
        · rintro ⟨h0, h1, h2⟩
          have hn := limitCloseLoop_three_of_all_none limitFill h0 h1 h2
          rw [hloop] at hn
          exact absurd hn (by simp)
      · intro o ho
        obtain ⟨j, hj, rfl⟩ := List.mem_map.mp ho
        exact ⟨rfl, rfl, rfl⟩
      · intro j hj
        refine ⟨?_, hpr j⟩
        rw [List.getElem?_map, List.getElem?_range hj]
        rfl
      · intro i' hi' p' hfi' hprev'
        have hii : i = i' := by
          rcases lt_trichotomy i i' with h | h | h
          · exact absurd hfi (by rw [hprev' i h]; simp)
          · exact h
          · exact absurd hfi' (by rw [hprev i' h]; simp)
        subst hii
        have hpp : p = p' := Option.some.inj (hfi.symm.trans hfi')
        subst hpp
        exact ⟨rfl, rfl, rfl⟩
      · rintro ⟨h0, h1, h2⟩
        have hn := limitCloseLoop_three_of_all_none limitFill h0 h1 h2
        rw [hloop] at hn
        exact absurd hn (by simp)
  | none =>
      obtain ⟨h0, h1, h2⟩ := limitCloseLoop_three_inv_none limitFill hloop
      have hred : closePosition sym position reason tickers limitFill marketFill hm =
          { result :=
              { position := position
                exitPrice := fixedNumber ((marketFill (Nat.find hm)).getD 0)
                pnl := calculatePnL position (fixedNumber ((marketFill (Nat.find hm)).getD 0))
                reason := reason
                isLoss := decide
                  (calculatePnL position (fixedNumber ((marketFill (Nat.find hm)).getD 0)) < 0) }
            orders := ((List.range 3).map fun j => limitCloseOrder sym position (tickers j)) ++
              ((List.range (Nat.find hm + 1)).map fun _ => marketCloseOrder sym position)
            limitAttempts := 3
            marketAttempts := Nat.find hm + 1 } := by
        simp only [closePosition, hloop]
      have hA : (closePosition sym position reason tickers limitFill marketFill hm).limitAttempts
          = 3 := by rw [hred]
      have hM : (closePosition sym position reason tickers limitFill marketFill hm).marketAttempts
          = Nat.find hm + 1 := by rw [hred]
      have hO : (closePosition sym position reason tickers limitFill marketFill hm).orders
          = ((List.range 3).map fun j => limitCloseOrder sym position (tickers j)) ++
            ((List.range (Nat.find hm + 1)).map fun _ => marketCloseOrder sym position) := by
        rw [hred]
      have hE : (closePosition sym position reason tickers limitFill
          marketFill hm).result.exitPrice
          = fixedNumber ((marketFill (Nat.find hm)).getD 0) := by rw [hred]
      have hR : (closePosition sym position reason tickers limitFill
          marketFill hm).result.reason = reason := by rw [hred]
      have hP : (closePosition sym position reason tickers limitFill
          marketFill hm).result.position = position := by rw [hred]
      rw [hA, hM, hO, hE, hR, hP]
      refine ⟨le_refl 3, by simp [List.length_append], ?_, ?_, ?_, ?_, ?_, rfl, rfl⟩
      · exact iff_of_true (Nat.succ_pos _) ⟨h0, h1, h2⟩
      · intro o ho
        rcases List.mem_append.mp ho with hL | hR2
        · obtain ⟨j, hj, rfl⟩ := List.mem_map.mp hL
          exact ⟨rfl, rfl, rfl⟩
        · obtain ⟨j, hj, rfl⟩ := List.mem_map.mp hR2
          exact ⟨rfl, rfl, rfl⟩
      · intro j hj
        refine ⟨?_, hpr j⟩
        rw [List.getElem?_append]
        have hjlen : j < (((List.range 3).map
            fun j => limitCloseOrder sym position (tickers j))).length := by
          simpa using hj
        rw [if_pos hjlen, List.getElem?_map, List.getElem?_range (by simpa using hj)]
        rfl
      · intro i' hi' p' hfi' _
        interval_cases i'
        · rw [h0] at hfi'
          exact absurd hfi' (by simp)
        · rw [h1] at hfi'
          exact absurd hfi' (by simp)
        · rw [h2] at hfi'
          exact absurd hfi' (by simp)
      · intro _
        refine ⟨rfl, rfl, rfl, Nat.find_spec hm, ?_, ?_⟩
        · intro m hmlt
          have := Nat.find_min hm hmlt
          simpa [Option.not_isSome_iff_eq_none] using this
        · intro k h3k hklen
          rw [List.getElem?_append]
          have hlen1 : (((List.range 3).map
              fun j => limitCloseOrder sym position (tickers j))).length = 3 := by simp
          have hklen' : k < 3 + (Nat.find hm + 1) := by
            simpa [List.length_append] using hklen
          rw [if_neg (by rw [hlen1]; omega), List.getElem?_map, hlen1,
            List.getElem?_range (by omega)]
          rfl

/-- C1 witness: 3 LIMIT failures, then a MARKET fill at 101 on the first
fallback attempt — exactly 4 orders, exitPrice 101. -/
theorem closePosition_retry_escalation_wit :
    (closePosition 0 posTrail .manual (fun _ => 100) (fun _ => none) (fun _ => some 101)
        ⟨0, rfl⟩).result.exitPrice = 101 ∧
    (closePosition 0 posTrail .manual (fun _ => 100) (fun _ => none) (fun _ => some 101)
        ⟨0, rfl⟩).limitAttempts = 3 ∧
    (closePosition 0 posTrail .manual (fun _ => 100) (fun _ => none) (fun _ => some 101)
        ⟨0, rfl⟩).marketAttempts = 1 := by
  have h := closePosition_retry_escalation 0 posTrail .manual (fun _ => 100) (fun _ => none)
    (fun _ => some 101) ⟨0, rfl⟩ (fun i => by norm_num) _ rfl
  have h7 := h.2.2.2.2.2.2.1 ⟨rfl, rfl, rfl⟩
  have hfind :
      Nat.find (⟨0, rfl⟩ : ∃ n, ((fun _ : ℕ => some (101 : ℚ)) n).isSome = true) = 0 := by
    rw [Nat.find_eq_zero]
    rfl
  refine ⟨?_, h7.1, ?_⟩
  · rw [h7.2.2.1, hfind]
    norm_num [fixedNumber, PRECISION, round_eq]
  · rw [h7.2.1, hfind]

/-- C7 witness: the amended bound theorem applied to a concrete
WIN/WIN/LOSS sequence. -/
theorem adjustStake_hardcoded_bounds_wit :
    2 ≤ ([TradeOutcome.WIN, TradeOutcome.WIN, TradeOutcome.LOSS].foldl
        (fun s o => (TradingStateManager.adjustStakePercentage s o).1)
        TradingStateManager.initialTradingState).currentStakePercentage ∧
    ([TradeOutcome.WIN, TradeOutcome.WIN, TradeOutcome.LOSS].foldl
        (fun s o => (TradingStateManager.adjustStakePercentage s o).1)
        TradingStateManager.initialTradingState).currentStakePercentage ≤ 16 :=
  adjustStake_hardcoded_bounds [TradeOutcome.WIN, TradeOutcome.WIN, TradeOutcome.LOSS]

/-- C8 witness: the load theorem instantiated at the startup defaults. -/
theorem load_missing_file_defaults_wit :
    TradingStateManager.load TradingStateManager.initialTradingState .readFailure =
      .error .readFailed :=
  load_missing_file_defaults.2.2.2.2.2.2.1 TradingStateManager.initialTradingState
